import Mathlib

/-!
Verification development for the china-calendar ICS generator
(src/scripts/generate_ics.py).

The script is shallowly embedded: Python `datetime.date` values become the
`Date` structure below together with proleptic-Gregorian ordinal arithmetic
(matching `date.toordinal` / `date.weekday`), the icalendar `Event` objects
become the `Event` structure, and each generation pass of the script becomes
a pure Lean function.  Fallible steps (network fetch, CSV reading, integer
parsing, date construction) are modelled with `Except Unit` / `Option`.
The external `lunardate` library is not part of the repository; it is
abstracted as a conversion-function parameter, exactly the narrow interface
the script uses.
-/

/-- Leap-year test of the proleptic Gregorian calendar, as used by Python
`datetime` (divisible by 4 and not by 100, or divisible by 400). -/
def isLeapYear (y : Nat) : Bool :=
  (y % 4 == 0 && y % 100 != 0) || (y % 400 == 0)

/-- Number of days in month `m` (1..12) of year `y`, Gregorian. -/
def daysInMonth (y m : Nat) : Nat :=
  if m = 2 then (if isLeapYear y then 29 else 28)
  else if m = 4 ∨ m = 6 ∨ m = 9 ∨ m = 11 then 30
  else 31

/-- A calendar date `(year, month, day)`, the embedding of Python
`datetime.date` (which carries no time-of-day component). -/
structure Date where
  year : Nat
  month : Nat
  day : Nat
deriving DecidableEq, Repr

/-- Validity of a date: the ranges `datetime.date` enforces (year bound
aside, which `mkDate` style constructors check separately). -/
def validDate (d : Date) : Prop :=
  1 ≤ d.year ∧ 1 ≤ d.month ∧ d.month ≤ 12 ∧ 1 ≤ d.day ∧
    d.day ≤ daysInMonth d.year d.month

instance (d : Date) : Decidable (validDate d) := by
  unfold validDate
  exact inferInstance

/-- Days in all years strictly before year `y`; summand of
`date.toordinal`. -/
def daysBeforeYear (y : Nat) : Nat :=
  365 * (y - 1) + (y - 1) / 4 - (y - 1) / 100 + (y - 1) / 400

/-- Cumulative day counts before each month in a common year. -/
def monthOffsetCommon : Nat → Nat
  | 1 => 0
  | 2 => 31
  | 3 => 59
  | 4 => 90
  | 5 => 120
  | 6 => 151
  | 7 => 181
  | 8 => 212
  | 9 => 243
  | 10 => 273
  | 11 => 304
  | _ => 334

/-- Days in year `y` strictly before month `m`. -/
def daysBeforeMonth (y m : Nat) : Nat :=
  monthOffsetCommon m + (if 3 ≤ m ∧ isLeapYear y then 1 else 0)

/-- Embedding of Python `date.toordinal`: day 1 is 0001-01-01. -/
def toOrdinal (d : Date) : Nat :=
  daysBeforeYear d.year + daysBeforeMonth d.year d.month + d.day

/-- Embedding of Python `date.weekday`: Monday = 0 .. Sunday = 6.
0001-01-01 (ordinal 1) is a Monday. -/
def pyWeekday (d : Date) : Nat := (toOrdinal d + 6) % 7

/-- Successor day, rolling over months and years. -/
def nextDay (d : Date) : Date :=
  if d.day < daysInMonth d.year d.month then ⟨d.year, d.month, d.day + 1⟩
  else if d.month < 12 then ⟨d.year, d.month + 1, 1⟩
  else ⟨d.year + 1, 1, 1⟩

/-- Embedding of `date + timedelta(days = k)` for `k ≥ 0`. -/
def addDays (d : Date) : Nat → Date
  | 0 => d
  | k + 1 => nextDay (addDays d k)

/-- Zero-padded two-digit decimal rendering, as in ISO dates. -/
def natPad2 (n : Nat) : String :=
  if n < 10 then "0" ++ toString n else toString n

/-- Zero-padded four-digit decimal rendering for years. -/
def natPad4 (n : Nat) : String :=
  if n < 10 then "000" ++ toString n
  else if n < 100 then "00" ++ toString n
  else if n < 1000 then "0" ++ toString n
  else toString n

/-- Embedding of Python `date.isoformat`. -/
def Date.isoformat (d : Date) : String :=
  natPad4 d.year ++ "-" ++ natPad2 d.month ++ "-" ++ natPad2 d.day

/-- Embedding of one icalendar `Event` as built by `_add_all_day_event`:
all fields the script sets, with the `datetime.now` creation timestamp
abstracted as a `Nat` stamp. -/
structure Event where
  summary : String
  description : String
  category : String
  dtstart : Date
  dtend : Date
  dtstamp : Nat
  uid : String
deriving DecidableEq, Repr

/-- Embedding of `_add_all_day_event`: one all-day event whose `dtend` is
the day after `the_date` and whose uid combines the ISO date and the
summary. -/
def add_all_day_event (stamp : Nat) (the_date : Date)
    (summary description category : String) : Event :=
  { summary := summary
    description := description
    category := category
    dtstart := the_date
    dtend := addDays the_date 1
    dtstamp := stamp
    uid := the_date.isoformat ++ "-" ++ summary ++ "@china-calendar" }

/-- Raw record of the statutory feed: the three fields the script reads
with `d.get`, each possibly absent (`none` models both a missing key and
JSON null). -/
structure RawRecord where
  name : Option String
  date : Option String
  isOffDay : Option Bool
deriving DecidableEq, Repr

/-- Python truthiness of an optional string: `None` and `""` are falsy. -/
def truthyStr : Option String → Bool
  | none => false
  | some s => !s.isEmpty

/-- Python truthiness of an optional boolean: `None` is falsy. -/
def truthyBool : Option Bool → Bool
  | none => false
  | some b => b

/-- Decimal value of a digit string, used by the integer parsers. -/
def pyDigitsToNat (cs : List Char) : Nat :=
  cs.foldl (fun a c => a * 10 + (c.toNat - 48)) 0

/-- Parse a non-empty all-digit character sequence as a natural number. -/
def pyParseNat? (cs : List Char) : Option Nat :=
  if cs ≠ [] ∧ cs.all Char.isDigit then some (pyDigitsToNat cs) else none

/-- Characters of a string with leading and trailing whitespace removed,
the behaviour of Python `str.strip()`. -/
def pyStripChars (cs : List Char) : List Char :=
  ((cs.dropWhile Char.isWhitespace).reverse.dropWhile Char.isWhitespace).reverse

/-- Embedding of Python `str.strip()`. -/
def pyStrip (s : String) : String := String.mk (pyStripChars s.data)

/-- Split a character sequence at every dash. -/
def splitDash : List Char → List (List Char)
  | [] => [[]]
  | c :: rest =>
    if c = '-' then [] :: splitDash rest
    else
      match splitDash rest with
      | g :: gs => (c :: g) :: gs
      | [] => [[c]]

/-- Embedding of `datetime.strptime(s, "%Y-%m-%d").date()`: three dash
separated decimal components forming a valid in-range date, else failure
(the Python call raises ValueError). -/
def parse_date_str (s : String) : Option Date :=
  match splitDash s.data with
  | [ys, ms, ds] =>
    match pyParseNat? ys, pyParseNat? ms, pyParseNat? ds with
    | some y, some m, some d =>
      if 1 ≤ y ∧ y ≤ 9999 ∧ 1 ≤ m ∧ m ≤ 12 ∧ 1 ≤ d ∧ d ≤ daysInMonth y m
      then some ⟨y, m, d⟩ else none
    | _, _, _ => none
  | _ => none

/-- Embedding of `add_offdays_and_workdays`.  The returned list holds the
events added to the calendar in order; the boolean is `false` when a date
string failed to parse, in which case the loop stops there (the ValueError
aborts the pass, keeping the events already added). -/
def add_offdays_and_workdays (stamp : Nat) : List RawRecord → List Event × Bool
  | [] => ([], true)
  | d :: rest =>
    if truthyStr d.date then
      match parse_date_str (d.date.getD "") with
      | none => ([], false)
      | some dt =>
        if truthyBool d.isOffDay && truthyStr d.name then
          (add_all_day_event stamp dt (d.name.getD "")
             "法定节假日（来源：holiday-cn）" "法定节假日" ::
               (add_offdays_and_workdays stamp rest).1,
           (add_offdays_and_workdays stamp rest).2)
        else if !truthyBool d.isOffDay && truthyStr d.name then
          (add_all_day_event stamp dt ("【补班】" ++ d.name.getD "")
             "调休安排的工作日（来源：holiday-cn）" "补班" ::
               (add_offdays_and_workdays stamp rest).1,
           (add_offdays_and_workdays stamp rest).2)
        else add_offdays_and_workdays stamp rest
    else add_offdays_and_workdays stamp rest

/-- One row of `data/fixed_holidays.csv` as `csv.DictReader` yields it. -/
structure FixedRow where
  name : String
  month : String
  day : String
  description : String
deriving DecidableEq, Repr

/-- A parsed fixed-holiday rule. -/
structure FixedItem where
  name : String
  month : Int
  day : Int
  description : String
deriving DecidableEq, Repr

/-- Embedding of Python `int(s)` on the decimal literals appearing in the
rule tables (optional sign, surrounding whitespace). -/
def pyInt (s : String) : Option Int :=
  match pyStripChars s.data with
  | '-' :: rest => (pyParseNat? rest).map (fun n => -(n : Int))
  | '+' :: rest => (pyParseNat? rest).map (fun n => (n : Int))
  | cs => (pyParseNat? cs).map (fun n => (n : Int))

/-- Embedding of `load_fixed_holidays`: parse every row in order; a
month/day field that is not an integer raises, aborting the load. -/
def load_fixed_holidays : List FixedRow → Except Unit (List FixedItem)
  | [] => .ok []
  | row :: rest =>
    match pyInt row.month, pyInt row.day with
    | some m, some d =>
      match load_fixed_holidays rest with
      | .ok items =>
        .ok ({ name := pyStrip row.name, month := m, day := d,
               description := pyStrip row.description } :: items)
      | .error e => .error e
    | _, _ => .error ()

/-- Embedding of the `datetime.date(y, m, d)` constructor on integer
month/day arguments: validity-checked, failure models ValueError. -/
def dateFromInts (y : Nat) (m d : Int) : Option Date :=
  if 1 ≤ y ∧ y ≤ 9999 ∧ 1 ≤ m ∧ m ≤ 12 ∧ 1 ≤ d ∧
      d ≤ (daysInMonth y m.toNat : Int)
  then some ⟨y, m.toNat, d.toNat⟩ else none

/-- Inner loop of `generate_fixed_holidays` for one year: an invalid
(month, day) raises and aborts the run. -/
def fixed_events_for_year (stamp y : Nat) : List FixedItem → Except Unit (List Event)
  | [] => .ok []
  | it :: rest =>
    match dateFromInts y it.month it.day with
    | none => .error ()
    | some dt =>
      match fixed_events_for_year stamp y rest with
      | .ok tail =>
        .ok (add_all_day_event stamp dt it.name
          (if it.description = "" then "固定公历节日" else it.description)
          "国际节日" :: tail)
      | .error e => .error e

/-- Embedding of `generate_fixed_holidays` over the year list. -/
def generate_fixed_holidays (stamp : Nat) : List Nat → List FixedItem → Except Unit (List Event)
  | [], _ => .ok []
  | y :: ys, items =>
    match fixed_events_for_year stamp y items with
    | .error e => .error e
    | .ok evs =>
      match generate_fixed_holidays stamp ys items with
      | .ok tail => .ok (evs ++ tail)
      | .error e => .error e

/-- One row of `data/lunar_holidays.csv`. -/
structure LunarRow where
  name : String
  lunar_month : String
  lunar_day : String
  description : String
deriving DecidableEq, Repr

/-- A parsed lunar-holiday rule. -/
structure LunarItem where
  name : String
  lunar_month : Int
  lunar_day : Int
  description : String
deriving DecidableEq, Repr

/-- Embedding of `load_lunar_holidays`, analogous to the fixed loader. -/
def load_lunar_holidays : List LunarRow → Except Unit (List LunarItem)
  | [] => .ok []
  | row :: rest =>
    match pyInt row.lunar_month, pyInt row.lunar_day with
    | some m, some d =>
      match load_lunar_holidays rest with
      | .ok items =>
        .ok ({ name := pyStrip row.name, lunar_month := m, lunar_day := d,
               description := pyStrip row.description } :: items)
      | .error e => .error e
    | _, _ => .error ()

/-- The narrow interface to the external `lunardate` library:
`LunarDate(lunarYear, m, d).to_datetime().date()`, with `none` modelling
any exception the library raises on an invalid lunar date. -/
def LunarConv := Nat → Int → Int → Option Date

/-- Embedding of `lunar_to_solar_for_gregorian_year`: try the lunar years
equal to the target solar year and one less, keep only results landing in
the target solar year, swallow conversion failures. -/
def lunar_to_solar_for_gregorian_year (conv : LunarConv) (gregorian_year : Nat)
    (lunar_month lunar_day : Int) : List Date :=
  (match conv gregorian_year lunar_month lunar_day with
   | some dt1 => if dt1.year = gregorian_year then [dt1] else []
   | none => []) ++
  (match conv (gregorian_year - 1) lunar_month lunar_day with
   | some dt0 => if dt0.year = gregorian_year then [dt0] else []
   | none => [])

/-- Candidate (solar date, rule) pairs of the lunar pass in loop order:
for each year, for each rule, each converted date. -/
def lunar_candidates (conv : LunarConv) (years : List Nat)
    (items : List LunarItem) : List (Date × LunarItem) :=
  years.flatMap (fun y => items.flatMap (fun it =>
    (lunar_to_solar_for_gregorian_year conv y it.lunar_month it.lunar_day).map
      (fun dt => (dt, it))))

/-- Loop body of `generate_lunar_holidays` with its `seen` accumulator:
a (date, name) key already seen is skipped, otherwise the event is added
and the key recorded. -/
def generate_lunar_aux (stamp : Nat) : List (Date × LunarItem) → List (Date × String) → List Event
  | [], _ => []
  | (dt, it) :: rest, seen =>
    if (dt, it.name) ∈ seen then generate_lunar_aux stamp rest seen
    else
      add_all_day_event stamp dt it.name
        (if it.description = "" then "中国传统节日" else it.description)
        "传统节日" :: generate_lunar_aux stamp rest ((dt, it.name) :: seen)

/-- Embedding of `generate_lunar_holidays`: dedup state starts empty. -/
def generate_lunar_holidays (conv : LunarConv) (stamp : Nat) (years : List Nat)
    (items : List LunarItem) : List Event :=
  generate_lunar_aux stamp (lunar_candidates conv years items) []

/-- Embedding of `get_nth_weekday`: offset from the first of the month to
the first occurrence of the weekday, plus `(n-1)` weeks. -/
def get_nth_weekday (year month weekday n : Nat) : Date :=
  let first_day : Date := ⟨year, month, 1⟩
  addDays first_day ((weekday + 7 - pyWeekday first_day) % 7 + (n - 1) * 7)

/-- Embedding of `generate_floating_holidays`: three fixed weekday rules
per year. -/
def generate_floating_holidays (stamp : Nat) (years : List Nat) : List Event :=
  years.flatMap (fun y =>
    [add_all_day_event stamp (get_nth_weekday y 5 6 2) "母亲节"
       "浮动国际节日：五月第二个星期日" "国际节日",
     add_all_day_event stamp (get_nth_weekday y 6 6 3) "父亲节"
       "浮动国际节日：六月第三个星期日" "国际节日",
     add_all_day_event stamp (get_nth_weekday y 11 3 4) "感恩节"
       "浮动国际节日：十一月第四个星期四（美）" "国际节日"])

/-- The statutory part of `build_calendar`: per year, a failed fetch (or a
parse failure inside the pass) is swallowed, keeping the events added so
far for that year. -/
def statutory_events (stamp : Nat) (fetch : Nat → Except Unit (List RawRecord))
    (years : List Nat) : List Event :=
  years.flatMap (fun y =>
    match fetch y with
    | .error _ => []
    | .ok days => (add_offdays_and_workdays stamp days).1)

/-- The fixed-holiday part of `build_calendar`: a missing file
(FileNotFoundError, modelled by `none`) is tolerated; any other failure
propagates. -/
def fixed_pass (stamp : Nat) (years : List Nat) :
    Option (List FixedRow) → Except Unit (List Event)
  | none => .ok []
  | some rows =>
    match load_fixed_holidays rows with
    | .error e => .error e
    | .ok items => generate_fixed_holidays stamp years items

/-- The lunar-holiday part of `build_calendar`: a missing file is
tolerated; a malformed row propagates. -/
def lunar_pass (conv : LunarConv) (stamp : Nat) (years : List Nat) :
    Option (List LunarRow) → Except Unit (List Event)
  | none => .ok []
  | some rows =>
    match load_lunar_holidays rows with
    | .error e => .error e
    | .ok items => .ok (generate_lunar_holidays conv stamp years items)

/-- Embedding of `build_calendar`: target years are the current year and
the next; the four passes run in order and their events accumulate into
one list; an uncaught exception from the fixed or lunar pass aborts the
build. -/
def build_calendar (stamp : Nat) (conv : LunarConv) (current_year : Nat)
    (fetch : Nat → Except Unit (List RawRecord))
    (fixedFile : Option (List FixedRow)) (lunarFile : Option (List LunarRow)) :
    Except Unit (List Event) :=
  match fixed_pass stamp [current_year, current_year + 1] fixedFile with
  | .error e => .error e
  | .ok fixed =>
    match lunar_pass conv stamp [current_year, current_year + 1] lunarFile with
    | .error e => .error e
    | .ok lunar =>
      .ok (statutory_events stamp fetch [current_year, current_year + 1] ++
        fixed ++ lunar ++
        generate_floating_holidays stamp [current_year, current_year + 1])

/-- All fields of an event except the creation timestamp. -/
def eventCore (e : Event) : String × String × String × Date × Date × String :=
  (e.summary, e.description, e.category, e.dtstart, e.dtend, e.uid)

/-- The (date, title) key the lunar pass dedups on. -/
def eventKey (e : Event) : Date × String := (e.dtstart, e.summary)

/-! ## Arithmetic lemmas about the date model -/

theorem daysInMonth_pos (y m : Nat) : 1 ≤ daysInMonth y m := by
  unfold daysInMonth
  split_ifs <;> omega

theorem daysInMonth_le (y m : Nat) : daysInMonth y m ≤ 31 := by
  unfold daysInMonth
  split_ifs <;> omega

theorem nextDay_valid {d : Date} (h : validDate d) : validDate (nextDay d) := by
  obtain ⟨y, m, dd⟩ := d
  unfold validDate at h ⊢
  unfold nextDay
  simp only at h
  split_ifs with h1 h2
  · show 1 ≤ y ∧ 1 ≤ m ∧ m ≤ 12 ∧ 1 ≤ dd + 1 ∧ dd + 1 ≤ daysInMonth y m
    simp only at h1
    exact ⟨h.1, h.2.1, h.2.2.1, by omega, by omega⟩
  · show 1 ≤ y ∧ 1 ≤ m + 1 ∧ m + 1 ≤ 12 ∧ 1 ≤ 1 ∧ 1 ≤ daysInMonth y (m + 1)
    simp only at h2
    exact ⟨by omega, by omega, by omega, le_refl 1, daysInMonth_pos _ _⟩
  · show 1 ≤ y + 1 ∧ 1 ≤ 1 ∧ 1 ≤ 12 ∧ 1 ≤ 1 ∧ 1 ≤ daysInMonth (y + 1) 1
    exact ⟨by omega, le_refl 1, by omega, le_refl 1, daysInMonth_pos _ _⟩

theorem daysBeforeMonth_succ (y m : Nat) (h1 : 1 ≤ m) (h2 : m ≤ 11) :
    daysBeforeMonth y (m + 1) = daysBeforeMonth y m + daysInMonth y m := by
  cases h : isLeapYear y <;> interval_cases m <;>
    simp_all [daysBeforeMonth, monthOffsetCommon, daysInMonth]

set_option maxHeartbeats 4000000 in
theorem daysBeforeYear_succ (y : Nat) (h : 1 ≤ y) :
    daysBeforeYear (y + 1) =
      daysBeforeYear y + 365 + (if isLeapYear y then 1 else 0) := by
  have hiff : (isLeapYear y = true) ↔ ((y % 4 = 0 ∧ ¬ y % 100 = 0) ∨ y % 400 = 0) := by
    simp [isLeapYear]
  unfold daysBeforeYear
  split_ifs with hl
  · rw [hiff] at hl
    omega
  · rw [hiff] at hl
    omega

theorem toOrdinal_nextDay {d : Date} (h : validDate d) :
    toOrdinal (nextDay d) = toOrdinal d + 1 := by
  obtain ⟨y, m, dd⟩ := d
  unfold validDate at h
  simp only at h
  unfold nextDay
  simp only
  split_ifs with h1 h2
  · simp only [toOrdinal]
    omega
  · have hm : m ≤ 11 := by omega
    have hd : dd = daysInMonth y m := by omega
    simp only [toOrdinal]
    rw [daysBeforeMonth_succ y m h.2.1 hm]
    omega
  · have hm : m = 12 := by omega
    subst hm
    have hd : dd = 31 := by
      have : daysInMonth y 12 = 31 := by simp [daysInMonth]
      omega
    subst hd
    simp only [toOrdinal]
    rw [daysBeforeYear_succ y h.1]
    simp only [daysBeforeMonth, monthOffsetCommon]
    split_ifs with hl <;> simp_all

theorem addDays_valid_ordinal {d : Date} (h : validDate d) (k : Nat) :
    validDate (addDays d k) ∧ toOrdinal (addDays d k) = toOrdinal d + k := by
  induction k with
  | zero => exact ⟨h, rfl⟩
  | succ n ih =>
    refine ⟨nextDay_valid ih.1, ?_⟩
    show toOrdinal (nextDay (addDays d n)) = toOrdinal d + (n + 1)
    rw [toOrdinal_nextDay ih.1, ih.2]
    omega

theorem addDays_within_month (y m k : Nat) (h : 1 + k ≤ daysInMonth y m) :
    addDays ⟨y, m, 1⟩ k = ⟨y, m, 1 + k⟩ := by
  induction k with
  | zero => rfl
  | succ n ih =>
    have hn : 1 + n ≤ daysInMonth y m := by omega
    show nextDay (addDays ⟨y, m, 1⟩ n) = _
    rw [ih hn]
    have hlt : 1 + n < daysInMonth y m := by omega
    show (if (1 + n) < daysInMonth y m then (⟨y, m, 1 + n + 1⟩ : Date)
      else if m < 12 then ⟨y, m + 1, 1⟩ else ⟨y + 1, 1, 1⟩) = ⟨y, m, 1 + (n + 1)⟩
    rw [if_pos hlt]
    congr 1

theorem nextDay_ym_mono (d : Date) :
    d.year < (nextDay d).year ∨
      ((nextDay d).year = d.year ∧ d.month ≤ (nextDay d).month) := by
  unfold nextDay
  split_ifs
  · right; exact ⟨rfl, le_refl _⟩
  · right; exact ⟨rfl, by show d.month ≤ d.month + 1; omega⟩
  · left; show d.year < d.year + 1; omega

theorem addDays_ym_mono (d : Date) (k : Nat) :
    d.year < (addDays d k).year ∨
      ((addDays d k).year = d.year ∧ d.month ≤ (addDays d k).month) := by
  induction k with
  | zero => right; exact ⟨rfl, le_refl _⟩
  | succ n ih =>
    have step := nextDay_ym_mono (addDays d n)
    show _ < (nextDay (addDays d n)).year ∨
      ((nextDay (addDays d n)).year = _ ∧ _ ≤ (nextDay (addDays d n)).month)
    rcases ih with h | ⟨h1, h2⟩ <;> rcases step with h' | ⟨h1', h2'⟩
    · left; omega
    · left; omega
    · left; omega
    · right; exact ⟨by omega, by omega⟩

theorem card_residue (off : Nat) (hoff : off < 7) (N : Nat) :
    ((Finset.Icc 1 N).filter (fun d => d % 7 = (1 + off) % 7)).card
      = (N + 6 - off) / 7 := by
  induction N with
  | zero =>
    rw [show Finset.Icc 1 0 = (∅ : Finset ℕ) from Finset.Icc_eq_empty_of_lt (by omega)]
    simp only [Finset.filter_empty, Finset.card_empty]
    omega
  | succ n ih =>
    have hins : Finset.Icc 1 (n + 1) = insert (n + 1) (Finset.Icc 1 n) :=
      (Nat.Icc_insert_succ_right (by omega)).symm
    rw [hins, Finset.filter_insert]
    split_ifs with hp
    · rw [Finset.card_insert_of_not_mem (by simp)]
      omega
    · rw [ih]
      omega

theorem weekday_filter_card (y m w N : Nat) (hw : w < 7) :
    ((Finset.Icc 1 N).filter (fun dd => pyWeekday ⟨y, m, dd⟩ = w)).card
      = (N + 6 - ((w + 7 - pyWeekday ⟨y, m, 1⟩) % 7)) / 7 := by
  set K := daysBeforeYear y + daysBeforeMonth y m with hK
  have h1 : pyWeekday ⟨y, m, 1⟩ = (K + 1 + 6) % 7 := rfl
  set off := (w + 7 - pyWeekday ⟨y, m, 1⟩) % 7 with hoffdef
  have hoff : off < 7 := by omega
  have hpred : ∀ dd ∈ Finset.Icc 1 N,
      (pyWeekday ⟨y, m, dd⟩ = w) ↔ (dd % 7 = (1 + off) % 7) := by
    intro dd _
    have h2 : pyWeekday ⟨y, m, dd⟩ = (K + dd + 6) % 7 := rfl
    rw [h2]
    omega
  rw [Finset.filter_congr hpred, card_residue off hoff N]

theorem get_nth_weekday_master (y m w n : Nat) (hy : 1 ≤ y) (hm1 : 1 ≤ m)
    (hm2 : m ≤ 12) (hw : w < 7) :
    validDate (get_nth_weekday y m w n) ∧
    pyWeekday (get_nth_weekday y m w n) = w ∧
    toOrdinal (get_nth_weekday y m w n) =
      daysBeforeYear y + daysBeforeMonth y m + 1 +
        ((w + 7 - pyWeekday ⟨y, m, 1⟩) % 7 + (n - 1) * 7) := by
  have hfv : validDate ⟨y, m, 1⟩ :=
    ⟨hy, hm1, hm2, le_refl 1, daysInMonth_pos y m⟩
  have hmain := addDays_valid_ordinal hfv
    ((w + 7 - pyWeekday ⟨y, m, 1⟩) % 7 + (n - 1) * 7)
  have hres : get_nth_weekday y m w n =
      addDays ⟨y, m, 1⟩ ((w + 7 - pyWeekday ⟨y, m, 1⟩) % 7 + (n - 1) * 7) := rfl
  have hord1 : toOrdinal ⟨y, m, 1⟩ = daysBeforeYear y + daysBeforeMonth y m + 1 := rfl
  refine ⟨hres ▸ hmain.1, ?_, by rw [hres, hmain.2, hord1]⟩
  rw [hres]
  show (toOrdinal _ + 6) % 7 = w
  rw [hmain.2, hord1]
  have h1 : pyWeekday ⟨y, m, 1⟩ = (daysBeforeYear y + daysBeforeMonth y m + 1 + 6) % 7 := rfl
  omega

/-! ## Events produced by every pass are all-day events -/

theorem add_all_day_event_all_day (stamp : Nat) (dt : Date) (s de c : String) :
    (add_all_day_event stamp dt s de c).dtend
      = addDays (add_all_day_event stamp dt s de c).dtstart 1 := rfl

theorem offdays_all_day (stamp : Nat) (days : List RawRecord) :
    ∀ e ∈ (add_offdays_and_workdays stamp days).1,
      e.dtend = addDays e.dtstart 1 := by
  induction days with
  | nil => intro e he; simp [add_offdays_and_workdays] at he
  | cons d rest ih =>
    intro e he
    rw [add_offdays_and_workdays] at he
    split at he
    · split at he
      · simp at he
      · split at he
        · rcases List.mem_cons.mp he with h | h
          · rw [h]; rfl
          · exact ih e h
        · split at he
          · rcases List.mem_cons.mp he with h | h
            · rw [h]; rfl
            · exact ih e h
          · exact ih e he
    · exact ih e he

theorem statutory_all_day (stamp : Nat) (fetch : Nat → Except Unit (List RawRecord))
    (years : List Nat) :
    ∀ e ∈ statutory_events stamp fetch years, e.dtend = addDays e.dtstart 1 := by
  intro e he
  rw [statutory_events] at he
  rcases List.mem_flatMap.mp he with ⟨y, _, hy⟩
  revert hy
  cases fetch y with
  | error _ => intro hy; simp at hy
  | ok days => exact offdays_all_day stamp days e

theorem fixed_year_all_day (stamp y : Nat) (items : List FixedItem)
    (l : List Event) (h : fixed_events_for_year stamp y items = .ok l) :
    ∀ e ∈ l, e.dtend = addDays e.dtstart 1 := by
  induction items generalizing l with
  | nil =>
    rw [fixed_events_for_year] at h
    injection h with h
    subst h
    intro e he; simp at he
  | cons it rest ih =>
    rw [fixed_events_for_year] at h
    split at h
    · exact absurd h (by simp)
    · split at h
      · injection h with h
        subst h
        intro e he
        rcases List.mem_cons.mp he with h | h
        · rw [h]; rfl
        · exact ih _ (by assumption) e h
      · exact absurd h (by simp)

theorem generate_fixed_all_day (stamp : Nat) (years : List Nat)
    (items : List FixedItem) (l : List Event)
    (h : generate_fixed_holidays stamp years items = .ok l) :
    ∀ e ∈ l, e.dtend = addDays e.dtstart 1 := by
  induction years generalizing l with
  | nil =>
    rw [generate_fixed_holidays] at h
    injection h with h
    subst h
    intro e he; simp at he
  | cons y ys ih =>
    rw [generate_fixed_holidays] at h
    split at h
    · exact absurd h (by simp)
    · split at h
      · injection h with h
        subst h
        intro e he
        rcases List.mem_append.mp he with hm | hm
        · exact fixed_year_all_day stamp y items _ (by assumption) e hm
        · exact ih _ (by assumption) e hm
      · exact absurd h (by simp)

theorem lunar_aux_all_day (stamp : Nat) (cands : List (Date × LunarItem))
    (seen : List (Date × String)) :
    ∀ e ∈ generate_lunar_aux stamp cands seen, e.dtend = addDays e.dtstart 1 := by
  induction cands generalizing seen with
  | nil => intro e he; simp [generate_lunar_aux] at he
  | cons c rest ih =>
    intro e he
    obtain ⟨dt, it⟩ := c
    rw [generate_lunar_aux] at he
    split at he
    · exact ih seen e he
    · rcases List.mem_cons.mp he with h | h
      · rw [h]; rfl
      · exact ih _ e h

theorem floating_all_day (stamp : Nat) (years : List Nat) :
    ∀ e ∈ generate_floating_holidays stamp years, e.dtend = addDays e.dtstart 1 := by
  intro e he
  rw [generate_floating_holidays] at he
  rcases List.mem_flatMap.mp he with ⟨y, _, hy⟩
  simp only [List.mem_cons, List.not_mem_nil, or_false] at hy
  rcases hy with h | h | h <;> rw [h] <;>
    exact add_all_day_event_all_day _ _ _ _ _

/-! ## Deduplication behaviour of the lunar pass -/

theorem lunar_aux_category (stamp : Nat) (cands : List (Date × LunarItem)) :
    ∀ seen, ∀ e ∈ generate_lunar_aux stamp cands seen, e.category = "传统节日" := by
  induction cands with
  | nil => intro seen e he; simp [generate_lunar_aux] at he
  | cons c rest ih =>
    intro seen e he
    obtain ⟨dt, it⟩ := c
    rw [generate_lunar_aux] at he
    split at he
    · exact ih seen e he
    · rcases List.mem_cons.mp he with h | h
      · rw [h]; rfl
      · exact ih _ e h

theorem lunar_aux_keys (stamp : Nat) (cands : List (Date × LunarItem)) :
    ∀ seen : List (Date × String),
      ((generate_lunar_aux stamp cands seen).map eventKey).Nodup ∧
      (∀ k, k ∈ (generate_lunar_aux stamp cands seen).map eventKey ↔
        (k ∈ cands.map (fun p => (p.1, p.2.name)) ∧ k ∉ seen)) := by
  induction cands with
  | nil =>
    intro seen
    refine ⟨by simp [generate_lunar_aux], ?_⟩
    intro k
    simp [generate_lunar_aux]
  | cons c rest ih =>
    intro seen
    obtain ⟨dt, it⟩ := c
    rw [generate_lunar_aux]
    split
    · rename_i hmem
      have h := ih seen
      refine ⟨h.1, ?_⟩
      intro k
      rw [h.2 k]
      simp only [List.map_cons, List.mem_cons]
      constructor
      · rintro ⟨hk, hns⟩
        exact ⟨Or.inr hk, hns⟩
      · rintro ⟨hk | hk, hns⟩
        · exact absurd (hk ▸ hmem) hns
        · exact ⟨hk, hns⟩
    · rename_i hmem
      have h := ih ((dt, it.name) :: seen)
      have hkeyhead : eventKey (add_all_day_event stamp dt it.name
          (if it.description = "" then "中国传统节日" else it.description)
          "传统节日") = (dt, it.name) := rfl
      constructor
      · rw [List.map_cons, List.nodup_cons]
        refine ⟨?_, h.1⟩
        intro hbad
        have := (h.2 _).mp hbad
        rw [hkeyhead] at this
        exact this.2 (List.mem_cons_self _ _)
      · intro k
        rw [List.map_cons, List.mem_cons, hkeyhead, h.2 k]
        simp only [List.map_cons, List.mem_cons]
        constructor
        · rintro (hk | ⟨hk2, hns⟩)
          · exact ⟨Or.inl hk, hk ▸ hmem⟩
          · exact ⟨Or.inr hk2, fun hs => hns (Or.inr hs)⟩
        · rintro ⟨hk | hk, hns⟩
          · exact Or.inl hk
          · by_cases hkey : k = (dt, it.name)
            · exact Or.inl hkey
            · right
              refine ⟨hk, ?_⟩
              rintro (h1 | h1)
              · exact hkey h1
              · exact hns h1

/-! ## Error propagation for malformed rule tables -/

theorem load_fixed_error (rows : List FixedRow) (row : FixedRow) (hrow : row ∈ rows)
    (hbad : pyInt row.month = none ∨ pyInt row.day = none) :
    load_fixed_holidays rows = .error () := by
  induction rows with
  | nil => simp at hrow
  | cons r rest ih =>
    rcases List.mem_cons.mp hrow with h | h
    · subst h
      rcases hbad with hb | hb
      · simp [load_fixed_holidays, hb]
      · cases hm : pyInt row.month <;> simp [load_fixed_holidays, hm, hb]
    · cases hm : pyInt r.month <;> cases hd : pyInt r.day <;>
        simp [load_fixed_holidays, hm, hd, ih h]

theorem load_lunar_error (rows : List LunarRow) (row : LunarRow) (hrow : row ∈ rows)
    (hbad : pyInt row.lunar_month = none ∨ pyInt row.lunar_day = none) :
    load_lunar_holidays rows = .error () := by
  induction rows with
  | nil => simp at hrow
  | cons r rest ih =>
    rcases List.mem_cons.mp hrow with h | h
    · subst h
      rcases hbad with hb | hb
      · simp [load_lunar_holidays, hb]
      · cases hm : pyInt row.lunar_month <;> simp [load_lunar_holidays, hm, hb]
    · cases hm : pyInt r.lunar_month <;> cases hd : pyInt r.lunar_day <;>
        simp [load_lunar_holidays, hm, hd, ih h]

theorem fixed_year_error (stamp y : Nat) (items : List FixedItem) (it : FixedItem)
    (hit : it ∈ items) (hbad : dateFromInts y it.month it.day = none) :
    fixed_events_for_year stamp y items = .error () := by
  induction items with
  | nil => simp at hit
  | cons i rest ih =>
    rcases List.mem_cons.mp hit with h | h
    · subst h
      rw [fixed_events_for_year, hbad]
    · rw [fixed_events_for_year]
      cases hd : dateFromInts y i.month i.day with
      | none => rfl
      | some dt => rw [ih h]

theorem generate_fixed_error (stamp : Nat) (years : List Nat)
    (items : List FixedItem) (y : Nat) (hy : y ∈ years)
    (herr : fixed_events_for_year stamp y items = .error ()) :
    generate_fixed_holidays stamp years items = .error () := by
  induction years with
  | nil => simp at hy
  | cons y0 ys ih =>
    rcases List.mem_cons.mp hy with h | h
    · subst h
      rw [generate_fixed_holidays, herr]
    · rw [generate_fixed_holidays]
      cases h0 : fixed_events_for_year stamp y0 items with
      | error e => rfl
      | ok evs => rw [ih h]

theorem build_error_of_fixed (stamp : Nat) (conv : LunarConv) (cy : Nat)
    (fetch : Nat → Except Unit (List RawRecord)) (ffile : Option (List FixedRow))
    (lfile : Option (List LunarRow))
    (h : fixed_pass stamp [cy, cy + 1] ffile = .error ()) :
    build_calendar stamp conv cy fetch ffile lfile = .error () := by
  rw [build_calendar, h]

theorem build_error_of_lunar (stamp : Nat) (conv : LunarConv) (cy : Nat)
    (fetch : Nat → Except Unit (List RawRecord)) (ffile : Option (List FixedRow))
    (lfile : Option (List LunarRow))
    (h : lunar_pass conv stamp [cy, cy + 1] lfile = .error ()) :
    build_calendar stamp conv cy fetch ffile lfile = .error () := by
  rw [build_calendar]
  cases hf : fixed_pass stamp [cy, cy + 1] ffile with
  | error e => rfl
  | ok evs => rw [h]

/-! ## The creation timestamp is the only stamp-dependent output field -/

theorem eventCore_add (s1 s2 : Nat) (dt : Date) (su de c : String) :
    eventCore (add_all_day_event s1 dt su de c)
      = eventCore (add_all_day_event s2 dt su de c) := rfl

theorem offdays_core (s1 s2 : Nat) (days : List RawRecord) :
    (add_offdays_and_workdays s1 days).1.map eventCore
      = (add_offdays_and_workdays s2 days).1.map eventCore ∧
    (add_offdays_and_workdays s1 days).2 = (add_offdays_and_workdays s2 days).2 := by
  induction days with
  | nil => exact ⟨rfl, rfl⟩
  | cons d rest ih =>
    simp only [add_offdays_and_workdays]
    by_cases h1 : truthyStr d.date = true
    · rw [if_pos h1, if_pos h1]
      cases hp : parse_date_str (d.date.getD "")
      · exact ⟨rfl, rfl⟩
      · dsimp only
        by_cases h2 : (truthyBool d.isOffDay && truthyStr d.name) = true
        · rw [if_pos h2, if_pos h2]
          exact ⟨by rw [List.map_cons, List.map_cons, ih.1, eventCore_add s1 s2], ih.2⟩
        · rw [if_neg h2, if_neg h2]
          by_cases h3 : (!truthyBool d.isOffDay && truthyStr d.name) = true
          · rw [if_pos h3, if_pos h3]
            exact ⟨by rw [List.map_cons, List.map_cons, ih.1, eventCore_add s1 s2], ih.2⟩
          · rw [if_neg h3, if_neg h3]
            exact ih
    · rw [if_neg h1, if_neg h1]
      exact ih

theorem statutory_core (s1 s2 : Nat) (fetch : Nat → Except Unit (List RawRecord))
    (years : List Nat) :
    (statutory_events s1 fetch years).map eventCore
      = (statutory_events s2 fetch years).map eventCore := by
  induction years with
  | nil => rfl
  | cons y ys ih =>
    show ((match fetch y with
      | .error _ => []
      | .ok days => (add_offdays_and_workdays s1 days).1) ++
        statutory_events s1 fetch ys).map eventCore
      = ((match fetch y with
      | .error _ => []
      | .ok days => (add_offdays_and_workdays s2 days).1) ++
        statutory_events s2 fetch ys).map eventCore
    rw [List.map_append, List.map_append, ih]
    cases hf : fetch y
    · rfl
    · rw [(offdays_core s1 s2 _).1]

theorem fixed_year_core (s1 s2 y : Nat) (items : List FixedItem) :
    (fixed_events_for_year s1 y items).map (List.map eventCore)
      = (fixed_events_for_year s2 y items).map (List.map eventCore) := by
  induction items with
  | nil => rfl
  | cons it rest ih =>
    simp only [fixed_events_for_year]
    cases hd : dateFromInts y it.month it.day
    · rfl
    · cases h1 : fixed_events_for_year s1 y rest with
      | error e1 =>
        cases h2 : fixed_events_for_year s2 y rest with
        | error e2 => rfl
        | ok l2 =>
          rw [h1, h2] at ih
          simp [Except.map] at ih
      | ok l1 =>
        cases h2 : fixed_events_for_year s2 y rest with
        | error e2 =>
          rw [h1, h2] at ih
          simp [Except.map] at ih
        | ok l2 =>
          rw [h1, h2] at ih
          simp only [Except.map] at ih
          injection ih with ih
          dsimp only
          simp only [Except.map, List.map_cons]
          rw [ih, eventCore_add s1 s2]

theorem generate_fixed_core (s1 s2 : Nat) (years : List Nat) (items : List FixedItem) :
    (generate_fixed_holidays s1 years items).map (List.map eventCore)
      = (generate_fixed_holidays s2 years items).map (List.map eventCore) := by
  induction years with
  | nil => rfl
  | cons y ys ih =>
    simp only [generate_fixed_holidays]
    have hy := fixed_year_core s1 s2 y items
    cases h1 : fixed_events_for_year s1 y items with
    | error e1 =>
      cases h2 : fixed_events_for_year s2 y items with
      | error e2 => rfl
      | ok l2 =>
        rw [h1, h2] at hy
        simp [Except.map] at hy
    | ok l1 =>
      cases h2 : fixed_events_for_year s2 y items with
      | error e2 =>
        rw [h1, h2] at hy
        simp [Except.map] at hy
      | ok l2 =>
        rw [h1, h2] at hy
        simp only [Except.map] at hy
        injection hy with hy
        cases g1 : generate_fixed_holidays s1 ys items with
        | error e1 =>
          cases g2 : generate_fixed_holidays s2 ys items with
          | error e2 => rfl
          | ok m2 =>
            rw [g1, g2] at ih
            simp [Except.map] at ih
        | ok m1 =>
          cases g2 : generate_fixed_holidays s2 ys items with
          | error e2 =>
            rw [g1, g2] at ih
            simp [Except.map] at ih
          | ok m2 =>
            rw [g1, g2] at ih
            simp only [Except.map] at ih
            injection ih with ih
            dsimp only
            simp only [Except.map, List.map_append]
            rw [hy, ih]

theorem fixed_pass_core (s1 s2 : Nat) (years : List Nat)
    (ffile : Option (List FixedRow)) :
    (fixed_pass s1 years ffile).map (List.map eventCore)
      = (fixed_pass s2 years ffile).map (List.map eventCore) := by
  cases ffile with
  | none => rfl
  | some rows =>
    simp only [fixed_pass]
    cases hl : load_fixed_holidays rows with
    | error e => rfl
    | ok items => exact generate_fixed_core s1 s2 years items

theorem lunar_aux_core (s1 s2 : Nat) (cands : List (Date × LunarItem)) :
    ∀ seen, (generate_lunar_aux s1 cands seen).map eventCore
      = (generate_lunar_aux s2 cands seen).map eventCore := by
  induction cands with
  | nil => intro seen; rfl
  | cons c rest ih =>
    intro seen
    obtain ⟨dt, it⟩ := c
    simp only [generate_lunar_aux]
    split_ifs with h hd
    · exact ih seen
    · rw [List.map_cons, List.map_cons, ih ((dt, it.name) :: seen),
        eventCore_add s1 s2]
    · rw [List.map_cons, List.map_cons, ih ((dt, it.name) :: seen),
        eventCore_add s1 s2]

theorem lunar_pass_core (conv : LunarConv) (s1 s2 : Nat) (years : List Nat)
    (lfile : Option (List LunarRow)) :
    (lunar_pass conv s1 years lfile).map (List.map eventCore)
      = (lunar_pass conv s2 years lfile).map (List.map eventCore) := by
  cases lfile with
  | none => rfl
  | some rows =>
    simp only [lunar_pass]
    cases hl : load_lunar_holidays rows with
    | error e => rfl
    | ok items =>
      simp only [Except.map]
      rw [generate_lunar_holidays, generate_lunar_holidays,
        lunar_aux_core s1 s2 _ []]

theorem floating_core (s1 s2 : Nat) (years : List Nat) :
    (generate_floating_holidays s1 years).map eventCore
      = (generate_floating_holidays s2 years).map eventCore := by
  induction years with
  | nil => rfl
  | cons y ys ih =>
    show (_ :: _ :: _ :: generate_floating_holidays s1 ys).map eventCore
      = (_ :: _ :: _ :: generate_floating_holidays s2 ys).map eventCore
    simp only [List.map_cons]
    rw [ih, eventCore_add s1 s2, eventCore_add s1 s2, eventCore_add s1 s2]

theorem build_core (s1 s2 : Nat) (conv : LunarConv) (cy : Nat)
    (fetch : Nat → Except Unit (List RawRecord)) (ffile : Option (List FixedRow))
    (lfile : Option (List LunarRow)) :
    (build_calendar s1 conv cy fetch ffile lfile).map (List.map eventCore)
      = (build_calendar s2 conv cy fetch ffile lfile).map (List.map eventCore) := by
  simp only [build_calendar]
  have hf := fixed_pass_core s1 s2 [cy, cy + 1] ffile
  have hl := lunar_pass_core conv s1 s2 [cy, cy + 1] lfile
  cases h1 : fixed_pass s1 [cy, cy + 1] ffile with
  | error e1 =>
    cases h2 : fixed_pass s2 [cy, cy + 1] ffile with
    | error e2 => rfl
    | ok l2 =>
      rw [h1, h2] at hf
      simp [Except.map] at hf
  | ok l1 =>
    cases h2 : fixed_pass s2 [cy, cy + 1] ffile with
    | error e2 =>
      rw [h1, h2] at hf
      simp [Except.map] at hf
    | ok l2 =>
      rw [h1, h2] at hf
      simp only [Except.map] at hf
      injection hf with hf
      cases g1 : lunar_pass conv s1 [cy, cy + 1] lfile with
      | error e1 =>
        cases g2 : lunar_pass conv s2 [cy, cy + 1] lfile with
        | error e2 => rfl
        | ok m2 =>
          rw [g1, g2] at hl
          simp [Except.map] at hl
      | ok m1 =>
        cases g2 : lunar_pass conv s2 [cy, cy + 1] lfile with
        | error e2 =>
          rw [g1, g2] at hl
          simp [Except.map] at hl
        | ok m2 =>
          rw [g1, g2] at hl
          simp only [Except.map] at hl
          injection hl with hl
          dsimp only
          simp only [Except.map, List.map_append]
          rw [hf, hl, statutory_core s1 s2 fetch, floating_core s1 s2]

/-- The shape of a successful build: when the fixed and lunar passes do not
abort, the result is the concatenation of the four passes in source order,
with the floating pass always present. -/
theorem build_calendar_shape (stamp : Nat) (conv : LunarConv) (cy : Nat)
    (fetch : Nat → Except Unit (List RawRecord)) (ffile : Option (List FixedRow))
    (lfile : Option (List LunarRow)) (fixedEvs lunarEvs : List Event)
    (hf : fixed_pass stamp [cy, cy + 1] ffile = .ok fixedEvs)
    (hl : lunar_pass conv stamp [cy, cy + 1] lfile = .ok lunarEvs) :
    build_calendar stamp conv cy fetch ffile lfile
      = .ok (statutory_events stamp fetch [cy, cy + 1] ++ fixedEvs ++ lunarEvs ++
          generate_floating_holidays stamp [cy, cy + 1]) := by
  rw [build_calendar, hf, hl]

/-! ## Claim theorems -/

/-- C3: for all valid year, month, weekday in 0..6 and n in 1..4 such that
the n-th occurrence of that weekday exists within the month,
`get_nth_weekday` returns a date in that month whose weekday equals the
requested weekday and which is the n-th such date counting from the 1st,
computed as the 0-6 day forward offset from the 1st plus (n-1)*7 days. -/
theorem get_nth_weekday_nth_occurrence (y m w n : Nat) (hy : 1 ≤ y)
    (hm1 : 1 ≤ m) (hm2 : m ≤ 12) (hw : w ≤ 6) (_hn1 : 1 ≤ n) (_hn4 : n ≤ 4)
    (hex : n ≤ ((Finset.Icc 1 (daysInMonth y m)).filter
      (fun dd => pyWeekday ⟨y, m, dd⟩ = w)).card) :
    (get_nth_weekday y m w n).year = y ∧
    (get_nth_weekday y m w n).month = m ∧
    1 ≤ (get_nth_weekday y m w n).day ∧
    (get_nth_weekday y m w n).day ≤ daysInMonth y m ∧
    pyWeekday (get_nth_weekday y m w n) = w ∧
    ((Finset.Icc 1 (get_nth_weekday y m w n).day).filter
      (fun dd => pyWeekday ⟨y, m, dd⟩ = w)).card = n ∧
    get_nth_weekday y m w n
      = addDays ⟨y, m, 1⟩ ((w + 7 - pyWeekday ⟨y, m, 1⟩) % 7 + (n - 1) * 7) := by
  set off := (w + 7 - pyWeekday ⟨y, m, 1⟩) % 7 with hoffdef
  have hoff7 : off < 7 := by omega
  have hcard := weekday_filter_card y m w (daysInMonth y m) (by omega)
  rw [← hoffdef] at hcard
  have hfits : 1 + (off + (n - 1) * 7) ≤ daysInMonth y m := by
    rw [hcard] at hex
    omega
  have hwithin := addDays_within_month y m (off + (n - 1) * 7) hfits
  have heq : get_nth_weekday y m w n = ⟨y, m, 1 + (off + (n - 1) * 7)⟩ := by
    show addDays ⟨y, m, 1⟩ (off + (n - 1) * 7) = _
    exact hwithin
  have hM := get_nth_weekday_master y m w n hy hm1 hm2 (by omega)
  refine ⟨by rw [heq], by rw [heq], ?_, ?_, hM.2.1, ?_, heq.trans hwithin.symm⟩
  · rw [heq]
    show 1 ≤ 1 + (off + (n - 1) * 7)
    omega
  · rw [heq]
    show 1 + (off + (n - 1) * 7) ≤ daysInMonth y m
    exact hfits
  · rw [heq]
    show ((Finset.Icc 1 (1 + (off + (n - 1) * 7))).filter
      (fun dd => pyWeekday ⟨y, m, dd⟩ = w)).card = n
    have h2 := weekday_filter_card y m w (1 + (off + (n - 1) * 7)) (by omega)
    rw [← hoffdef] at h2
    rw [h2]
    omega

/-- Witness for C3 at year 2024, May, Sunday, n = 2: Mother's Day
2024-05-12. -/
theorem get_nth_weekday_nth_occurrence_witness :
    pyWeekday (get_nth_weekday 2024 5 6 2) = 6 ∧
    (get_nth_weekday 2024 5 6 2).year = 2024 ∧
    (get_nth_weekday 2024 5 6 2).month = 5 ∧
    ((Finset.Icc 1 (get_nth_weekday 2024 5 6 2).day).filter
      (fun dd => pyWeekday ⟨2024, 5, dd⟩ = 6)).card = 2 := by
  have h := get_nth_weekday_nth_occurrence 2024 5 6 2 (by decide) (by decide)
    (by decide) (by decide) (by decide) (by decide) (by decide)
  exact ⟨h.2.2.2.2.1, h.1, h.2.1, h.2.2.2.2.2.1⟩

/-- C10: `get_nth_weekday` is total for every valid month, weekday in 0..6
and n at least 1: it always returns a valid date whose weekday equals the
requested one, and when the n-th occurrence does not fit inside the month
the returned date falls in a later month. -/
theorem get_nth_weekday_total (y m w n : Nat) (hy : 1 ≤ y) (hm1 : 1 ≤ m)
    (hm2 : m ≤ 12) (hw : w ≤ 6) (_hn1 : 1 ≤ n) :
    validDate (get_nth_weekday y m w n) ∧
    pyWeekday (get_nth_weekday y m w n) = w ∧
    (daysInMonth y m < 1 + ((w + 7 - pyWeekday ⟨y, m, 1⟩) % 7 + (n - 1) * 7) →
      y < (get_nth_weekday y m w n).year ∨
        ((get_nth_weekday y m w n).year = y ∧
          m < (get_nth_weekday y m w n).month)) := by
  have hM := get_nth_weekday_master y m w n hy hm1 hm2 (by omega)
  refine ⟨hM.1, hM.2.1, ?_⟩
  intro hout
  have hres : get_nth_weekday y m w n
      = addDays ⟨y, m, 1⟩ ((w + 7 - pyWeekday ⟨y, m, 1⟩) % 7 + (n - 1) * 7) := rfl
  have hmono := addDays_ym_mono ⟨y, m, 1⟩
    ((w + 7 - pyWeekday ⟨y, m, 1⟩) % 7 + (n - 1) * 7)
  rw [← hres] at hmono
  rcases hmono with h | ⟨h1, h2⟩
  · left
    exact h
  · by_cases hmm : (get_nth_weekday y m w n).month = m
    · exfalso
      have hvd := hM.1
      have hyy : (get_nth_weekday y m w n).year = y := h1
      have hord : toOrdinal (get_nth_weekday y m w n)
          = daysBeforeYear (get_nth_weekday y m w n).year
            + daysBeforeMonth (get_nth_weekday y m w n).year
                (get_nth_weekday y m w n).month
            + (get_nth_weekday y m w n).day := rfl
      rw [hyy, hmm] at hord
      have hday := hvd.2.2.2.2
      rw [hyy, hmm] at hday
      rw [hM.2.2] at hord
      omega
    · right
      have hyy : (get_nth_weekday y m w n).year = y := h1
      have hmle : m ≤ (get_nth_weekday y m w n).month := h2
      exact ⟨hyy, by omega⟩

/-- Witness for C10 at year 2024, February, Sunday, n = 5: the fifth
Sunday does not exist in February 2024, and the result rolls into March. -/
theorem get_nth_weekday_total_witness :
    validDate (get_nth_weekday 2024 2 6 5) ∧
    pyWeekday (get_nth_weekday 2024 2 6 5) = 6 ∧
    (2024 < (get_nth_weekday 2024 2 6 5).year ∨
      ((get_nth_weekday 2024 2 6 5).year = 2024 ∧
        2 < (get_nth_weekday 2024 2 6 5).month)) := by
  have h := get_nth_weekday_total 2024 2 6 5 (by decide) (by decide)
    (by decide) (by decide) (by decide)
  exact ⟨h.1, h.2.1, h.2.2 (by decide)⟩

/-- C1: a statutory-feed record with a non-empty (well-formed) date string
and a non-empty name yields exactly one event from the statutory/workday
pass: a statutory-holiday event titled exactly the name when `isOffDay` is
truthy, and a compensatory-workday event titled `"【补班】" ++ name` (the
compensatory marker prefixed to the name) otherwise; a record with an
empty or missing name yields no event. -/
theorem statutory_record_single_event (stamp : Nat) (r : RawRecord)
    (rest : List RawRecord) (ds : String) (dt : Date)
    (hds : r.date = some ds) (hparse : parse_date_str ds = some dt) :
    (∀ name, r.name = some name → name ≠ "" →
      add_offdays_and_workdays stamp (r :: rest)
        = ((if truthyBool r.isOffDay then
              add_all_day_event stamp dt name
                "法定节假日（来源：holiday-cn）" "法定节假日"
            else
              add_all_day_event stamp dt ("【补班】" ++ name)
                "调休安排的工作日（来源：holiday-cn）" "补班") ::
            (add_offdays_and_workdays stamp rest).1,
          (add_offdays_and_workdays stamp rest).2)) ∧
    (truthyStr r.name = false →
      add_offdays_and_workdays stamp (r :: rest)
        = add_offdays_and_workdays stamp rest) := by
  have hne : ds ≠ "" := by
    intro h
    rw [h] at hparse
    have : parse_date_str "" = none := rfl
    rw [this] at hparse
    cases hparse
  have hts : truthyStr r.date = true := by
    rw [hds]
    show (!ds.isEmpty) = true
    cases hie : ds.isEmpty
    · rfl
    · exact absurd ((String.isEmpty_iff ds).mp hie) hne
  have hgd : r.date.getD "" = ds := by rw [hds]; rfl
  constructor
  · intro name hname hname'
    have htn : truthyStr r.name = true := by
      rw [hname]
      show (!name.isEmpty) = true
      cases hie : name.isEmpty
      · rfl
      · exact absurd ((String.isEmpty_iff name).mp hie) hname'
    have hgn : r.name.getD "" = name := by rw [hname]; rfl
    cases hoff : truthyBool r.isOffDay <;>
      simp [add_offdays_and_workdays, hts, hgd, hparse, hgn, htn, hoff]
  · intro hnf
    simp [add_offdays_and_workdays, hts, hgd, hparse, hnf]

/-- Witness for C1: a compensatory record (isOffDay false) with name
国庆节 on 2024-10-12 yields exactly the compensatory event, and an
empty-name record yields nothing. -/
theorem statutory_record_single_event_witness :
    add_offdays_and_workdays 0
        [⟨some "国庆节", some "2024-10-12", some false⟩]
      = ([add_all_day_event 0 ⟨2024, 10, 12⟩ ("【补班】" ++ "国庆节")
          "调休安排的工作日（来源：holiday-cn）" "补班"], true) ∧
    add_offdays_and_workdays 0 [⟨some "", some "2024-10-12", some true⟩]
      = ([], true) := by
  have h1 := statutory_record_single_event 0
    ⟨some "国庆节", some "2024-10-12", some false⟩ [] "2024-10-12" ⟨2024, 10, 12⟩
    rfl (by decide)
  have h2 := statutory_record_single_event 0
    ⟨some "", some "2024-10-12", some true⟩ [] "2024-10-12" ⟨2024, 10, 12⟩
    rfl (by decide)
  exact ⟨(h1.1 "国庆节" rfl (by decide)).trans (by decide),
    (h2.2 (by decide)).trans rfl⟩

/-- C9 (implicit): a record whose `isOffDay` field is absent or null is
treated exactly like `isOffDay = false`: the pass behaves identically, and
with a non-empty name and valid date it emits the compensatory-workday
event instead of skipping or failing. -/
theorem isOffDay_absent_like_false (stamp : Nat) (r : RawRecord)
    (rest : List RawRecord) (habs : r.isOffDay = none) :
    add_offdays_and_workdays stamp (r :: rest)
      = add_offdays_and_workdays stamp
          ({ r with isOffDay := some false } :: rest) ∧
    (∀ name ds dt, r.name = some name → name ≠ "" → r.date = some ds →
      parse_date_str ds = some dt →
      add_offdays_and_workdays stamp (r :: rest)
        = (add_all_day_event stamp dt ("【补班】" ++ name)
            "调休安排的工作日（来源：holiday-cn）" "补班" ::
              (add_offdays_and_workdays stamp rest).1,
          (add_offdays_and_workdays stamp rest).2)) := by
  constructor
  · simp only [add_offdays_and_workdays, habs]
    rfl
  · intro name ds dt hname hname' hds hparse
    have h := (statutory_record_single_event stamp r rest ds dt hds hparse).1
      name hname hname'
    rw [h, habs]
    rfl

/-- Witness for C9: a record with no `isOffDay` field at all emits the
compensatory event. -/
theorem isOffDay_absent_like_false_witness :
    add_offdays_and_workdays 0 [⟨some "国庆节", some "2024-10-12", none⟩]
      = ([add_all_day_event 0 ⟨2024, 10, 12⟩ ("【补班】" ++ "国庆节")
          "调休安排的工作日（来源：holiday-cn）" "补班"], true) := by
  have h := (isOffDay_absent_like_false 0
    ⟨some "国庆节", some "2024-10-12", none⟩ [] rfl).2
    "国庆节" "2024-10-12" ⟨2024, 10, 12⟩ rfl (by decide) rfl (by decide)
  exact h.trans rfl

/-- C2: for every conversion oracle, target solar year and lunar
month/day, `lunar_to_solar_for_gregorian_year` tries the lunar years equal
to the target year and one less, keeps only dates landing in the target
solar year, returns between 0 and 2 dates, and a conversion failure
contributes no result and raises no error. -/
theorem mem_if_singleton {d x : Date} {c : Prop} [Decidable c]
    (h : d ∈ (if c then [x] else [])) : d = x ∧ c := by
  split_ifs at h with hc
  · simp at h
    exact ⟨h, hc⟩
  · simp at h

theorem lunar_to_solar_bounds (conv : LunarConv) (gy : Nat) (lm ld : Int) :
    (lunar_to_solar_for_gregorian_year conv gy lm ld).length ≤ 2 ∧
    (∀ d ∈ lunar_to_solar_for_gregorian_year conv gy lm ld, d.year = gy) ∧
    (conv gy lm ld = none →
      (lunar_to_solar_for_gregorian_year conv gy lm ld).length ≤ 1) ∧
    (conv gy lm ld = none → conv (gy - 1) lm ld = none →
      lunar_to_solar_for_gregorian_year conv gy lm ld = []) := by
  unfold lunar_to_solar_for_gregorian_year
  cases h1 : conv gy lm ld <;> cases h2 : conv (gy - 1) lm ld <;> dsimp only
  · exact ⟨by simp, by simp, fun _ => by simp, fun _ _ => rfl⟩
  · refine ⟨?_, ?_, ?_, ?_⟩
    · split_ifs <;> simp
    · intro d hd
      rcases List.mem_append.mp hd with h | h
      · simp at h
      · have hm := mem_if_singleton h
        rw [hm.1]
        exact hm.2
    · intro _
      split_ifs <;> simp
    · intro _ hc
      cases hc
  · refine ⟨?_, ?_, ?_, ?_⟩
    · split_ifs <;> simp
    · intro d hd
      rcases List.mem_append.mp hd with h | h
      · have hm := mem_if_singleton h
        rw [hm.1]
        exact hm.2
      · simp at h
    · intro hc
      cases hc
    · intro hc _
      cases hc
  · refine ⟨?_, ?_, ?_, ?_⟩
    · split_ifs <;> simp
    · intro d hd
      rcases List.mem_append.mp hd with h | h
      · have hm := mem_if_singleton h
        rw [hm.1]
        exact hm.2
      · have hm := mem_if_singleton h
        rw [hm.1]
        exact hm.2
    · intro hc
      cases hc
    · intro hc _
      cases hc

/-- Witness for C2: with an oracle that always fails, the result is empty;
with an oracle returning a date in the target year for both candidate
lunar years, the result has the two dates. -/
theorem lunar_to_solar_bounds_witness :
    lunar_to_solar_for_gregorian_year (fun _ _ _ => none) 2024 1 1 = [] ∧
    (lunar_to_solar_for_gregorian_year
      (fun ly _ _ => some ⟨2024, 2, (2030 - ly)⟩) 2024 1 1).length = 2 := by
  refine ⟨(lunar_to_solar_bounds (fun _ _ _ => none) 2024 1 1).2.2.2 rfl rfl, ?_⟩
  have h := (lunar_to_solar_bounds
    (fun ly _ _ => some ⟨2024, 2, (2030 - ly)⟩) 2024 1 1).1
  have h2 : lunar_to_solar_for_gregorian_year
      (fun ly _ _ => some ⟨2024, 2, (2030 - ly)⟩) 2024 1 1
      = [⟨2024, 2, 6⟩, ⟨2024, 2, 7⟩] := by decide
  rw [h2]
  rfl

theorem fixed_pass_all_day (stamp : Nat) (years : List Nat)
    (ffile : Option (List FixedRow)) (l : List Event)
    (h : fixed_pass stamp years ffile = .ok l) :
    ∀ e ∈ l, e.dtend = addDays e.dtstart 1 := by
  cases ffile with
  | none =>
    injection h with h
    subst h
    intro e he
    simp at he
  | some rows =>
    simp only [fixed_pass] at h
    cases hl : load_fixed_holidays rows with
    | error e1 =>
      rw [hl] at h
      cases h
    | ok items =>
      rw [hl] at h
      exact generate_fixed_all_day stamp years items l h

theorem lunar_pass_all_day (conv : LunarConv) (stamp : Nat) (years : List Nat)
    (lfile : Option (List LunarRow)) (l : List Event)
    (h : lunar_pass conv stamp years lfile = .ok l) :
    ∀ e ∈ l, e.dtend = addDays e.dtstart 1 := by
  cases lfile with
  | none =>
    injection h with h
    subst h
    intro e he
    simp at he
  | some rows =>
    simp only [lunar_pass] at h
    cases hl : load_lunar_holidays rows with
    | error e1 =>
      rw [hl] at h
      cases h
    | ok items =>
      rw [hl] at h
      injection h with h
      subst h
      exact lunar_aux_all_day stamp _ []

/-- C4: every event added to the calendar by any pass is an all-day event:
its end date is exactly one day after its start date, and start and end
are plain calendar dates with no time-of-day component (the `Date` type of
the embedding has no time field, mirroring `datetime.date`). -/
theorem build_calendar_all_day (stamp : Nat) (conv : LunarConv) (cy : Nat)
    (fetch : Nat → Except Unit (List RawRecord)) (ffile : Option (List FixedRow))
    (lfile : Option (List LunarRow)) (l : List Event)
    (h : build_calendar stamp conv cy fetch ffile lfile = .ok l) :
    ∀ e ∈ l, e.dtend = addDays e.dtstart 1 := by
  rw [build_calendar] at h
  cases hf : fixed_pass stamp [cy, cy + 1] ffile with
  | error e1 =>
    rw [hf] at h
    cases h
  | ok fl =>
    rw [hf] at h
    cases hl : lunar_pass conv stamp [cy, cy + 1] lfile with
    | error e1 =>
      rw [hl] at h
      cases h
    | ok ll =>
      rw [hl] at h
      injection h with h
      subst h
      intro e he
      rcases List.mem_append.mp he with h1 | h1
      · rcases List.mem_append.mp h1 with h2 | h2
        · rcases List.mem_append.mp h2 with h3 | h3
          · exact statutory_all_day stamp fetch [cy, cy + 1] e h3
          · exact fixed_pass_all_day stamp [cy, cy + 1] ffile fl hf e h3
        · exact lunar_pass_all_day conv stamp [cy, cy + 1] lfile ll hl e h2
      · exact floating_all_day stamp [cy, cy + 1] e h1

/-- Witness for C4: in a concrete build (failing fetch, missing rule
files) the Mother's Day event of 2024 satisfies the all-day invariant. -/
theorem build_calendar_all_day_witness :
    (add_all_day_event 0 (get_nth_weekday 2024 5 6 2) "母亲节"
        "浮动国际节日：五月第二个星期日" "国际节日").dtend
      = addDays (add_all_day_event 0 (get_nth_weekday 2024 5 6 2) "母亲节"
          "浮动国际节日：五月第二个星期日" "国际节日").dtstart 1 := by
  refine build_calendar_all_day 0 (fun _ _ _ => none) 2024 (fun _ => .error ())
    none none (generate_floating_holidays 0 [2024, 2024 + 1]) rfl _ ?_
  exact List.mem_flatMap.mpr ⟨2024, List.mem_cons_self _ _,
    List.mem_cons_self _ _⟩

/-- C5: within one run of the lunar pass, each distinct (date, title) key
among the candidates yields exactly one traditional-holiday event (keys of
the emitted events are duplicate-free and range over exactly the candidate
keys); and no deduplication is applied across passes: a concrete build in
which the fixed pass and the floating pass both produce an event keyed
(2024-05-12, 母亲节) retains both. -/
theorem lunar_pass_dedup (conv : LunarConv) (stamp : Nat) (years : List Nat)
    (items : List LunarItem) :
    ((generate_lunar_holidays conv stamp years items).map eventKey).Nodup ∧
    (∀ k, k ∈ (generate_lunar_holidays conv stamp years items).map eventKey ↔
      k ∈ (lunar_candidates conv years items).map (fun p => (p.1, p.2.name))) ∧
    (∀ e ∈ generate_lunar_holidays conv stamp years items,
      e.category = "传统节日") ∧
    (Except.map (fun l => (l.filter
        (fun e => eventKey e = (⟨2024, 5, 12⟩, "母亲节"))).length)
      (build_calendar 0 (fun _ _ _ => none) 2024 (fun _ => .error ())
        (some [⟨"母亲节", "5", "12", ""⟩]) none) = .ok 2) := by
  refine ⟨(lunar_aux_keys stamp _ []).1, ?_, lunar_aux_category stamp _ [], ?_⟩
  · intro k
    rw [generate_lunar_holidays, (lunar_aux_keys stamp _ []).2 k]
    simp
  · rfl

/-- Witness for C5: a conversion oracle that maps both candidate lunar
years to the same solar date, over a duplicated year list, still yields an
event whose category is traditional, and the pass emits it exactly once
(its key list is the singleton). -/
theorem lunar_pass_dedup_witness :
    (add_all_day_event 0 ⟨2024, 2, 10⟩ "春节" "中国传统节日" "传统节日").category
      = "传统节日" ∧
    (generate_lunar_holidays (fun _ _ _ => some ⟨2024, 2, 10⟩) 0 [2024, 2024]
      [⟨"春节", 1, 1, ""⟩]).map eventKey = [(⟨2024, 2, 10⟩, "春节")] := by
  constructor
  · refine (lunar_pass_dedup (fun _ _ _ => some ⟨2024, 2, 10⟩) 0 [2024, 2024]
      [⟨"春节", 1, 1, ""⟩]).2.2.1 _ ?_
    exact List.mem_cons_self _ _
  · rfl

/-- C6: a failed statutory fetch for a year contributes zero events for
that year, a missing fixed or lunar source file contributes zero events
for that pass, and whenever the fixed and lunar passes do not abort the
build succeeds with the floating pass always present — so no such failure
prevents the later passes from running. -/
theorem pass_failure_isolated (stamp : Nat) (conv : LunarConv) (cy : Nat)
    (fetch : Nat → Except Unit (List RawRecord)) (ffile : Option (List FixedRow))
    (lfile : Option (List LunarRow)) (fixedEvs lunarEvs : List Event)
    (hf : fixed_pass stamp [cy, cy + 1] ffile = .ok fixedEvs)
    (hl : lunar_pass conv stamp [cy, cy + 1] lfile = .ok lunarEvs) :
    build_calendar stamp conv cy fetch ffile lfile
      = .ok (statutory_events stamp fetch [cy, cy + 1] ++ fixedEvs ++ lunarEvs ++
          generate_floating_holidays stamp [cy, cy + 1]) ∧
    (∀ y, fetch y = .error () → statutory_events stamp fetch [y] = []) ∧
    (ffile = none → fixedEvs = []) ∧
    (lfile = none → lunarEvs = []) := by
  refine ⟨build_calendar_shape stamp conv cy fetch ffile lfile fixedEvs lunarEvs hf hl,
    ?_, ?_, ?_⟩
  · intro y hy
    simp [statutory_events, hy]
  · intro hn
    subst hn
    injection hf with hf
    exact hf.symm
  · intro hn
    subst hn
    injection hl with hl
    exact hl.symm

/-- Witness for C6: with every fetch failing and both rule files missing,
the build still succeeds and consists of the floating events alone, and
the statutory pass contributes nothing for 2024. -/
theorem pass_failure_isolated_witness :
    build_calendar 0 (fun _ _ _ => none) 2024 (fun _ => .error ()) none none
      = .ok (statutory_events 0 (fun _ => .error ()) [2024, 2024 + 1] ++ [] ++ [] ++
          generate_floating_holidays 0 [2024, 2024 + 1]) ∧
    statutory_events 0 (fun _ => .error ()) [2024] = [] := by
  have h := pass_failure_isolated 0 (fun _ _ _ => none) 2024 (fun _ => .error ())
    none none [] [] rfl rfl
  exact ⟨h.1, h.2.1 2024 rfl⟩

/-- C7: malformed rule-table data is fatal: a fixed or lunar CSV row whose
month/day field does not parse as an integer, or a fixed rule whose
(year, month, day) is not a valid calendar date, makes `build_calendar`
abort with an error rather than skipping the entry. -/
theorem malformed_rules_fatal :
    (∀ (stamp : Nat) (conv : LunarConv) (cy : Nat)
      (fetch : Nat → Except Unit (List RawRecord)) (lfile : Option (List LunarRow))
      (rows : List FixedRow) (row : FixedRow), row ∈ rows →
      (pyInt row.month = none ∨ pyInt row.day = none) →
      build_calendar stamp conv cy fetch (some rows) lfile = .error ()) ∧
    (∀ (stamp : Nat) (conv : LunarConv) (cy : Nat)
      (fetch : Nat → Except Unit (List RawRecord)) (lfile : Option (List LunarRow))
      (rows : List FixedRow) (items : List FixedItem) (it : FixedItem),
      load_fixed_holidays rows = .ok items → it ∈ items →
      dateFromInts cy it.month it.day = none →
      build_calendar stamp conv cy fetch (some rows) lfile = .error ()) ∧
    (∀ (stamp : Nat) (conv : LunarConv) (cy : Nat)
      (fetch : Nat → Except Unit (List RawRecord)) (ffile : Option (List FixedRow))
      (rows : List LunarRow) (row : LunarRow), row ∈ rows →
      (pyInt row.lunar_month = none ∨ pyInt row.lunar_day = none) →
      build_calendar stamp conv cy fetch ffile (some rows) = .error ()) := by
  refine ⟨?_, ?_, ?_⟩
  · intro stamp conv cy fetch lfile rows row hrow hbad
    apply build_error_of_fixed
    simp only [fixed_pass]
    rw [load_fixed_error rows row hrow hbad]
  · intro stamp conv cy fetch lfile rows items it hload hit hbad
    apply build_error_of_fixed
    simp only [fixed_pass]
    rw [hload]
    exact generate_fixed_error stamp [cy, cy + 1] items cy
      (List.mem_cons_self _ _) (fixed_year_error stamp cy items it hit hbad)
  · intro stamp conv cy fetch ffile rows row hrow hbad
    apply build_error_of_lunar
    simp only [lunar_pass]
    rw [load_lunar_error rows row hrow hbad]

/-- Witness for C7: a fixed row with the non-numeric month 12月, a fixed
rule for February 30th, and a lunar row with a non-numeric month each
abort the whole build. -/
theorem malformed_rules_fatal_witness :
    build_calendar 0 (fun _ _ _ => none) 2024 (fun _ => .error ())
      (some [⟨"圣诞节", "12月", "25", ""⟩]) none = .error () ∧
    build_calendar 0 (fun _ _ _ => none) 2024 (fun _ => .error ())
      (some [⟨"无效", "2", "30", ""⟩]) none = .error () ∧
    build_calendar 0 (fun _ _ _ => none) 2024 (fun _ => .error ())
      none (some [⟨"中秋节", "八", "15", ""⟩]) = .error () := by
  refine ⟨malformed_rules_fatal.1 0 _ 2024 _ none _ _
      (List.mem_cons_self _ _) (Or.inl (by decide)),
    malformed_rules_fatal.2.1 0 _ 2024 _ none _
      [⟨pyStrip "无效", 2, 30, pyStrip ""⟩] _ rfl
      (List.mem_cons_self _ _) (by decide),
    malformed_rules_fatal.2.2 0 _ 2024 _ none _ _
      (List.mem_cons_self _ _) (Or.inl (by decide))⟩

/-- C8: two builds over identical inputs (same fetch results, same rule
files, same current year) agree on every event field except the creation
timestamp: stripping `dtstamp` from every event yields identical results
for any two stamp values. -/
theorem build_calendar_deterministic_mod_stamp (s1 s2 : Nat) (conv : LunarConv)
    (cy : Nat) (fetch : Nat → Except Unit (List RawRecord))
    (ffile : Option (List FixedRow)) (lfile : Option (List LunarRow)) :
    (build_calendar s1 conv cy fetch ffile lfile).map (List.map eventCore)
      = (build_calendar s2 conv cy fetch ffile lfile).map (List.map eventCore) :=
  build_core s1 s2 conv cy fetch ffile lfile
